import Mathlib

/-!
Shallow embedding of the indicator & signal-evaluation engine of
`src/main.py` (`analyze_data`).  Python floats are modelled by `ℚ`; a
float `NaN` (pandas missing value) is modelled by `none : Option ℚ`.
A raw candle row carries the seven columns the code names on line 129
(`timestamp, open, high, low, close, baseVol, usdtVol`); the numeric
columns are `Option ℚ` because `pd.to_numeric(..., errors='coerce')`
turns an unparsable cell into NaN.  The timestamp column is never run
through `to_numeric` in the code, so it is kept as a plain `Int`.
-/

set_option maxRecDepth 100000

attribute [local semireducible] Rat.mul Rat.inv Rat.add Rat.sub

namespace CryptoAnalyzer

/-- One raw candle row after the positional column naming of line 129 and
the permissive numeric coercion of lines 139-145 (`none` = NaN). -/
structure RawRow where
  ts : Int
  open_ : Option ℚ
  high : Option ℚ
  low : Option ℚ
  close : Option ℚ
  baseVol : Option ℚ
  usdtVol : Option ℚ
deriving DecidableEq, Repr

/-- One forward-fill step on a single cell: keep a parsed value, otherwise
propagate the last seen value (pandas `ffill`, line 150). -/
def fill (cur last : Option ℚ) : Option ℚ :=
  match cur with
  | some v => some v
  | none => last

/-- Column-wise forward fill with explicit carried last-seen value. -/
def ffillAux (a : Option ℚ) : List (Option ℚ) → List (Option ℚ)
  | [] => []
  | x :: xs => fill x a :: ffillAux (fill x a) xs

/-- The value the forward fill carries after traversing a whole column;
this is the last cell of the filled column. -/
def fillFold (a : Option ℚ) : List (Option ℚ) → Option ℚ
  | [] => a
  | x :: xs => fillFold (fill x a) xs

/-- Last-seen values of the six numeric columns during row-wise forward
fill (the per-column state of `df[numeric_columns].ffill()`). -/
structure Prev where
  o : Option ℚ
  h : Option ℚ
  l : Option ℚ
  c : Option ℚ
  b : Option ℚ
  u : Option ℚ

/-- Row-wise forward fill of the six numeric columns (line 150).  The
timestamp column is not in `numeric_columns` and passes through
unchanged. -/
def repairAux (p : Prev) : List RawRow → List RawRow
  | [] => []
  | r :: rs =>
    ⟨r.ts, fill r.open_ p.o, fill r.high p.h, fill r.low p.l,
      fill r.close p.c, fill r.baseVol p.b, fill r.usdtVol p.u⟩ ::
    repairAux ⟨fill r.open_ p.o, fill r.high p.h, fill r.low p.l,
      fill r.close p.c, fill r.baseVol p.b, fill r.usdtVol p.u⟩ rs

/-- Forward-fill repair of the whole batch.  The code only calls `ffill`
when some NaN is present (line 148), but `ffill` on a NaN-free frame is
the identity, so applying it unconditionally is the same function. -/
def repairRows (rows : List RawRow) : List RawRow :=
  repairAux ⟨none, none, none, none, none, none⟩ rows

/-- A row that `df.dropna()` keeps: every numeric field parsed (the
timestamp is an `Int` in the model and the derived `volume` column is a
copy of `usdtVol`, so those never introduce NaN). -/
def rowValid (r : RawRow) : Bool :=
  r.open_.isSome && r.high.isSome && r.low.isSome &&
  r.close.isSome && r.baseVol.isSome && r.usdtVol.isSome

/-- Number of rows surviving `df.dropna()` (line 156 and line 264). -/
def validCount (rows : List RawRow) : ℕ :=
  (rows.filter rowValid).length

/-- State of the pandas `ewm(adjust=False, ignore_na=False)` recursion:
current weighted average (NaN while no observation has been seen), the
weight of the old average, and the number of observations. -/
structure EwmState where
  avg : Option ℚ
  oldWt : ℚ
  nobs : ℕ

/-- One step of the pandas exponentially-weighted mean with
`adjust=False`, `ignore_na=False`: a NaN decays the old weight and keeps
the average; an observation is folded in with weight `α` and the old
weight then resets to 1.  (The `weighted_avg != cur` fast path of pandas
is omitted: when the values are equal the update formula returns the
same average.) -/
def ewmStep (α : ℚ) (st : EwmState) (x : Option ℚ) : EwmState :=
  match st.avg, x with
  | none, none => st
  | none, some v => ⟨some v, 1, st.nobs + 1⟩
  | some a, none => ⟨some a, st.oldWt * (1 - α), st.nobs⟩
  | some a, some v =>
      ⟨some ((st.oldWt * (1 - α) * a + α * v) / (st.oldWt * (1 - α) + α)), 1, st.nobs + 1⟩

/-- Last value of `ta.trend.EMAIndicator(close, window).ema_indicator()`,
i.e. of `close.ewm(span=window, min_periods=window, adjust=False).mean()`:
the recursive EMA with smoothing factor `2/(window+1)`, reported as NaN
(here `none`) while fewer than `window` observations have been seen. -/
def emaLast (window : ℕ) (xs : List (Option ℚ)) : Option ℚ :=
  if window ≤ (xs.foldl (ewmStep (2 / (window + 1))) ⟨none, 1, 0⟩).nobs then
    (xs.foldl (ewmStep (2 / (window + 1))) ⟨none, 1, 0⟩).avg
  else none

/-- Last value of `series.rolling(window=w).mean()`: the mean of the last
`w` cells when the series has at least `w` cells and none of the last `w`
is NaN (`min_periods` defaults to the window size); NaN otherwise. -/
def rollingMeanLast (w : ℕ) (xs : List (Option ℚ)) : Option ℚ :=
  if xs.length < w then none
  else
    let win := xs.drop (xs.length - w)
    if win.all Option.isSome then some ((win.filterMap id).sum / (w : ℚ)) else none

/-- `series.mean()` of a pandas column: NaN entries are skipped; the mean
of an all-NaN column is NaN. -/
def colMean (xs : List (Option ℚ)) : Option ℚ :=
  let vs := xs.filterMap id
  if vs.length = 0 then none else some (vs.sum / (vs.length : ℚ))

/-- Lines 183-185: the 20-period rolling volume average, replaced by the
whole-series mean when it is NaN or non-positive.  (The `except` fallback
of lines 186-188 cannot fire on these total operations.) -/
def volumeAvg20 (vols : List (Option ℚ)) : Option ℚ :=
  match rollingMeanLast 20 vols with
  | some v => if v ≤ 0 then colMean vols else some v
  | none => colMean vols

/-- `series.iloc[-1]` of a column of possibly-NaN cells. -/
def lastCell (xs : List (Option ℚ)) : Option ℚ :=
  match xs.getLast? with
  | some v => v
  | none => none

/-- Python `>` on possibly-NaN floats: any comparison with NaN is false. -/
def qgt (a b : Option ℚ) : Bool :=
  match a, b with
  | some x, some y => decide (y < x)
  | _, _ => false

/-- Python `<=` on possibly-NaN floats: any comparison with NaN is false. -/
def qle (a b : Option ℚ) : Bool :=
  match a, b with
  | some x, some y => decide (x ≤ y)
  | _, _ => false

/-- A value of the `gti_criteria_checks` dict: a boolean flag or a
string (the `note` and the EMA-insufficiency message). -/
inductive GVal where
  | b (x : Bool)
  | s (x : String)
deriving DecidableEq, Repr

/-- First-match lookup in the criteria dict (all keys the code inserts
are distinct, so this is exactly the Python dict). -/
def lookupG (k : String) : List (String × GVal) → Option GVal
  | [] => none
  | (k', v) :: rest => if k' = k then some v else lookupG k rest

/-- Lines 199-213: the trend block of `gti_results`.  With both EMAs
available the four trend flags are inserted; otherwise only
`trend_condition_met = False` plus an `error` entry. -/
def gtiResults (ema10Val ema20Val latestPrice : Option ℚ) : List (String × GVal) :=
  match ema10Val, ema20Val with
  | some e10, some e20 =>
      [("trend_condition_met", .b (decide (e20 < e10) &&
          (qgt latestPrice (some e10) && qgt latestPrice (some e20)))),
       ("price_above_ema10", .b (qgt latestPrice (some e10))),
       ("price_above_ema20", .b (qgt latestPrice (some e20))),
       ("ema10_above_ema20", .b (decide (e20 < e10)))]
  | _, _ =>
      [("trend_condition_met", .b false),
       ("error", .s "Không đủ dữ liệu để tính EMA")]

/-- Lines 254-260: the full `gti_criteria_checks` dict. -/
def criteriaChecks (gti : List (String × GVal)) (volBreakout pb10 pb20 : Bool) :
    List (String × GVal) :=
  gti ++
  [("volume_breakout_on_latest_candle", .b volBreakout),
   ("pullback_to_ema10", .b pb10),
   ("pullback_to_ema20", .b pb20),
   ("note", .s "Trend condition: EMA10 > EMA20 (uptrend) + price above both EMAs")]

/-- The `indicators` block of the result (lines 245-253).  `latest_price`
and `latest_volume` are floats in the code and can in principle be NaN,
hence `Option ℚ` here as well. -/
structure Indicators where
  latest_price : Option ℚ
  latest_volume : Option ℚ
  volume_avg_20 : Option ℚ
  ema10 : Option ℚ
  ema20 : Option ℚ
  ema50 : Option ℚ
  ema200 : Option ℚ
deriving DecidableEq, Repr

/-- One echoed OHLC candle (lines 232-239): raw timestamp, repaired
numeric fields, volume taken from the `usdtVol` copy. -/
structure OhlcRow where
  timestamp : Int
  open_ : Option ℚ
  high : Option ℚ
  low : Option ℚ
  close : Option ℚ
  volume : Option ℚ
deriving DecidableEq, Repr

/-- The `data_quality` block (lines 262-266). -/
structure DataQuality where
  total_candles : ℕ
  valid_candles : ℕ
  timeframe : String
deriving DecidableEq, Repr

/-- A non-error analysis result (lines 244-267). -/
structure AnalysisOk where
  indicators : Indicators
  gti_criteria_checks : List (String × GVal)
  ohlc_data : List OhlcRow
  data_quality : DataQuality
deriving DecidableEq, Repr

/-- The repaired DataFrame (`df` after lines 125-153). -/
def dfOf (b : List RawRow) : List RawRow := repairRows b

/-- The `close` column of the repaired frame. -/
def closesOf (b : List RawRow) : List (Option ℚ) := (dfOf b).map RawRow.close

/-- The derived `volume` column: `df['volume'] = df['usdtVol']` (line 153). -/
def volsOf (b : List RawRow) : List (Option ℚ) := (dfOf b).map RawRow.usdtVol

/-- The `low` column of the repaired frame. -/
def lowsOf (b : List RawRow) : List (Option ℚ) := (dfOf b).map RawRow.low

/-- `ema10.iloc[-1]` turned into `None` on NaN (lines 162, 166). -/
def ema10Of (b : List RawRow) : Option ℚ := emaLast 10 (closesOf b)

/-- `ema20.iloc[-1]` turned into `None` on NaN (lines 163, 167). -/
def ema20Of (b : List RawRow) : Option ℚ := emaLast 20 (closesOf b)

/-- Lines 170-174: EMA-50 is attempted only for timeframes `1D`/`1W` on a
frame of at least 200 rows. -/
def ema50Of (b : List RawRow) (timeframe : String) : Option ℚ :=
  if (timeframe = "1D" ∨ timeframe = "1W") ∧ 200 ≤ (dfOf b).length then
    emaLast 50 (closesOf b)
  else none

/-- Lines 170-175: EMA-200 under the same gate as EMA-50. -/
def ema200Of (b : List RawRow) (timeframe : String) : Option ℚ :=
  if (timeframe = "1D" ∨ timeframe = "1W") ∧ 200 ≤ (dfOf b).length then
    emaLast 200 (closesOf b)
  else none

/-- Lines 182-188 applied to the batch. -/
def volumeAvg20Of (b : List RawRow) : Option ℚ := volumeAvg20 (volsOf b)

/-- `df['close'].iloc[-1]` (line 191). -/
def latestPriceOf (b : List RawRow) : Option ℚ := lastCell (closesOf b)

/-- `df['volume'].iloc[-1]` (line 192). -/
def latestVolumeOf (b : List RawRow) : Option ℚ := lastCell (volsOf b)

/-- `df['low'].iloc[-1]` (line 193). -/
def latestLowOf (b : List RawRow) : Option ℚ := lastCell (lowsOf b)

/-- `df['high'].iloc[-1]` (line 194; computed by the code but never used). -/
def latestHighOf (b : List RawRow) : Option ℚ :=
  lastCell ((dfOf b).map RawRow.high)

/-- Line 216: `bool(latest_volume > 1.5 * volume_avg_20) if volume_avg_20 > 0
else False`; a NaN average fails the `> 0` guard. -/
def volBreakoutOf (b : List RawRow) : Bool :=
  match volumeAvg20Of b with
  | some v => if 0 < v then qgt (latestVolumeOf b) (some (3 / 2 * v)) else false
  | none => false

/-- Lines 219-225: pullback flag for one EMA. -/
def pullbackFlag (ema low price : Option ℚ) : Bool :=
  match ema with
  | some e => qle low (some e) && qgt price (some e)
  | none => false

/-- Lines 232-239: one echoed candle built from a repaired row. -/
def echoRow (r : RawRow) : OhlcRow :=
  ⟨r.ts, r.open_, r.high, r.low, r.close, r.usdtVol⟩

/-- Lines 228-239: `df.tail(min(100, len(df)))` cast row by row. -/
def ohlcOf (b : List RawRow) : List OhlcRow :=
  let df := dfOf b
  (df.drop (df.length - min 100 df.length)).map echoRow

/-- The non-error result assembled on lines 244-267. -/
def analyzeOk (b : List RawRow) (timeframe : String) : AnalysisOk :=
  { indicators :=
      ⟨latestPriceOf b, latestVolumeOf b, volumeAvg20Of b,
       ema10Of b, ema20Of b, ema50Of b timeframe, ema200Of b timeframe⟩,
    gti_criteria_checks :=
      criteriaChecks
        (gtiResults (ema10Of b) (ema20Of b) (latestPriceOf b))
        (volBreakoutOf b)
        (pullbackFlag (ema10Of b) (latestLowOf b) (latestPriceOf b))
        (pullbackFlag (ema20Of b) (latestLowOf b) (latestPriceOf b)),
    ohlc_data := ohlcOf b,
    data_quality := ⟨(dfOf b).length, validCount (dfOf b), timeframe⟩ }

/-- `analyze_data(candle_data, timeframe)` (lines 113-272).  An empty
batch (`not candle_data`) is subsumed by the length test.  The rows of
the model carry exactly the seven named columns, so the `< 7 columns` and
missing-column error branches (lines 130-145) cannot fire; none of the
guarded operations raises on the model's total functions, so the
remaining error returns are the two data-volume checks. -/
def analyzeData (candleData : List RawRow) (timeframe : String) :
    Except String AnalysisOk :=
  if candleData.length < 50 then
    .error "Không đủ dữ liệu để phân tích."
  else if validCount (dfOf candleData) < 20 then
    .error "Quá nhiều dữ liệu không hợp lệ sau khi xử lý"
  else
    .ok (analyzeOk candleData timeframe)

/-- Projection of a non-error result out of the `Except`, with an inert
placeholder on the error side (used only to state closed facts about
results that are proved to be non-error). -/
def okd (e : Except String AnalysisOk) : AnalysisOk :=
  match e with
  | .ok r => r
  | .error _ => ⟨⟨none, none, none, none, none, none, none⟩, [], [], ⟨0, 0, ""⟩⟩

/-! Concrete sample batches used by witnesses and counterexamples. -/

/-- Fifty fully-parseable candles with constant price 1 and a 10× volume
spike on the last candle. -/
def sample50 : List RawRow :=
  (List.range 50).map (fun i =>
    ⟨i, some 1, some 1, some 1, some 1, some 1, if i = 49 then some 10 else some 1⟩)

/-- Fifty candles, all parseable except the close of row 30, which the
forward fill repairs from row 29. -/
def sampleGap : List RawRow :=
  (List.range 50).map (fun i =>
    ⟨i, some 1, some 1, some 1, if i = 30 then none else some 1, some 1, some 1⟩)

/-- Two hundred daily candles whose first close is unparsable; all other
fields parse to 1. -/
def sample200 : List RawRow :=
  ⟨0, some 1, some 1, some 1, none, some 1, some 1⟩ ::
    (List.range 199).map (fun i => ⟨i + 1, some 1, some 1, some 1, some 1, some 1, some 1⟩)

/-- Fifty candles with strictly increasing closes 1..50 (ascending
delivery); its reverse is the same data delivered descending. -/
def bAsc : List RawRow :=
  (List.range 50).map (fun i =>
    ⟨i, some 1, some 1, some 1, some ((i : ℚ) + 1), some 1, some 1⟩)

/-- A row with its timestamp relabelled and every other field unchanged. -/
def retimeRow (f : Int → Int) (r : RawRow) : RawRow :=
  ⟨f r.ts, r.open_, r.high, r.low, r.close, r.baseVol, r.usdtVol⟩

/-- Relabel every timestamp of a batch. -/
def mapTs (f : Int → Int) (b : List RawRow) : List RawRow :=
  b.map (retimeRow f)

/-- An echoed candle with its timestamp relabelled. -/
def retimeEcho (f : Int → Int) (c : OhlcRow) : OhlcRow :=
  ⟨f c.timestamp, c.open_, c.high, c.low, c.close, c.volume⟩

/-- A non-error result with the echoed timestamps relabelled; every other
field untouched. -/
def retimeOk (f : Int → Int) (r : AnalysisOk) : AnalysisOk :=
  ⟨r.indicators, r.gti_criteria_checks, r.ohlc_data.map (retimeEcho f), r.data_quality⟩

/-! Helper lemmas about the embedded operations. -/

theorem length_repairAux (p : Prev) (rs : List RawRow) :
    (repairAux p rs).length = rs.length := by
  induction rs generalizing p with
  | nil => rfl
  | cons r rs ih => simp [repairAux, ih]

theorem length_dfOf (b : List RawRow) : (dfOf b).length = b.length :=
  length_repairAux _ b

theorem map_close_repairAux (rs : List RawRow) (p : Prev) :
    (repairAux p rs).map RawRow.close = ffillAux p.c (rs.map RawRow.close) := by
  induction rs generalizing p with
  | nil => rfl
  | cons r rs ih => simp [repairAux, ffillAux, ih]

theorem map_low_repairAux (rs : List RawRow) (p : Prev) :
    (repairAux p rs).map RawRow.low = ffillAux p.l (rs.map RawRow.low) := by
  induction rs generalizing p with
  | nil => rfl
  | cons r rs ih => simp [repairAux, ffillAux, ih]

theorem map_usdtVol_repairAux (rs : List RawRow) (p : Prev) :
    (repairAux p rs).map RawRow.usdtVol = ffillAux p.u (rs.map RawRow.usdtVol) := by
  induction rs generalizing p with
  | nil => rfl
  | cons r rs ih => simp [repairAux, ffillAux, ih]

theorem length_ffillAux (a : Option ℚ) (xs : List (Option ℚ)) :
    (ffillAux a xs).length = xs.length := by
  induction xs generalizing a with
  | nil => rfl
  | cons x xs ih => simp [ffillAux, ih]

theorem lastCell_cons_cons (z w : Option ℚ) (l : List (Option ℚ)) :
    lastCell (z :: w :: l) = lastCell (w :: l) := by
  simp only [lastCell, List.getLast?_cons_cons]

theorem lastCell_ffillAux (xs : List (Option ℚ)) (a : Option ℚ) (hx : xs ≠ []) :
    lastCell (ffillAux a xs) = fillFold a xs := by
  induction xs generalizing a with
  | nil => exact absurd rfl hx
  | cons x xs ih =>
    cases xs with
    | nil => simp [ffillAux, fillFold, lastCell]
    | cons y ys =>
      rw [ffillAux]
      have htail : ffillAux (fill x a) (y :: ys) =
          fill y (fill x a) :: ffillAux (fill y (fill x a)) ys := rfl
      rw [htail, lastCell_cons_cons, ← htail, fillFold]
      exact ih (fill x a) (by simp)

theorem fillFold_isSome_of_carry (xs : List (Option ℚ)) (a : Option ℚ)
    (ha : a.isSome = true) : (fillFold a xs).isSome = true := by
  induction xs generalizing a with
  | nil => exact ha
  | cons x xs ih =>
    cases x with
    | some v => exact ih (some v) rfl
    | none => exact ih a ha

theorem fillFold_isSome_of_mem (xs : List (Option ℚ)) (a : Option ℚ) (y : ℚ)
    (hy : some y ∈ ffillAux a xs) : (fillFold a xs).isSome = true := by
  induction xs generalizing a with
  | nil => simp [ffillAux] at hy
  | cons x xs ih =>
    rw [ffillAux] at hy
    rcases List.mem_cons.mp hy with h | h
    · rw [fillFold]
      exact fillFold_isSome_of_carry xs (fill x a) (by rw [← h]; rfl)
    · rw [fillFold]
      exact ih (fill x a) h

theorem ewm_foldl_nobs (α : ℚ) (xs : List (Option ℚ)) :
    ∀ st : EwmState, (xs.foldl (ewmStep α) st).nobs = st.nobs + xs.countP Option.isSome := by
  induction xs with
  | nil => intro st; simp
  | cons x xs ih =>
    intro st
    rw [List.foldl_cons, ih, List.countP_cons]
    cases hx : x with
    | some v =>
      cases ha : st.avg <;> simp [ewmStep, ha, Option.isSome] <;> omega
    | none =>
      cases ha : st.avg <;> simp [ewmStep, ha, Option.isSome]

theorem ewm_foldl_avg_isSome (α : ℚ) (xs : List (Option ℚ)) :
    ∀ st : EwmState, st.avg.isSome = true → ((xs.foldl (ewmStep α) st).avg).isSome = true := by
  induction xs with
  | nil => intro st h; exact h
  | cons x xs ih =>
    intro st h
    rw [List.foldl_cons]
    apply ih
    obtain ⟨a, ha⟩ := Option.isSome_iff_exists.mp h
    cases x <;> simp [ewmStep, ha]

theorem ewm_foldl_avg_none (α : ℚ) (xs : List (Option ℚ)) :
    ∀ st : EwmState, ((xs.foldl (ewmStep α) st).avg) = none →
      st.avg = none ∧ xs.countP Option.isSome = 0 := by
  induction xs with
  | nil => intro st h; exact ⟨h, rfl⟩
  | cons x xs ih =>
    intro st h
    rw [List.foldl_cons] at h
    obtain ⟨h1, h2⟩ := ih _ h
    cases hx : x with
    | some v =>
      exfalso
      rw [hx] at h1
      cases ha : st.avg <;> simp [ewmStep, ha] at h1
    | none =>
      rw [hx] at h1
      cases ha : st.avg with
      | some a => exfalso; simp [ewmStep, ha] at h1
      | none =>
        refine ⟨rfl, ?_⟩
        rw [List.countP_cons, h2]
        simp

theorem emaLast_eq_none_iff (w : ℕ) (hw : 1 ≤ w) (xs : List (Option ℚ)) :
    emaLast w xs = none ↔ xs.countP Option.isSome < w := by
  unfold emaLast
  have hn : (xs.foldl (ewmStep (2 / (w + 1))) ⟨none, 1, 0⟩).nobs =
      xs.countP Option.isSome := by
    simpa using ewm_foldl_nobs (2 / (w + 1)) xs ⟨none, 1, 0⟩
  by_cases h : w ≤ (xs.foldl (ewmStep (2 / (w + 1))) ⟨none, 1, 0⟩).nobs
  · rw [if_pos h]
    rw [hn] at h
    constructor
    · intro habs
      obtain ⟨_, hc⟩ := ewm_foldl_avg_none _ xs _ habs
      omega
    · intro hlt; exact absurd hlt (by omega)
  · rw [if_neg h]
    rw [hn] at h
    simp only [true_iff]
    omega

theorem emaLast_isSome_of_countP (w : ℕ) (hw : 1 ≤ w) (xs : List (Option ℚ))
    (h : w ≤ xs.countP Option.isSome) : ∃ e, emaLast w xs = some e := by
  rcases he : emaLast w xs with _ | e
  · exfalso
    have := (emaLast_eq_none_iff w hw xs).mp he
    omega
  · exact ⟨e, rfl⟩

theorem validCount_le_countP_col (f : RawRow → Option ℚ)
    (hf : ∀ r, rowValid r = true → (f r).isSome = true) (l : List RawRow) :
    validCount l ≤ (l.map f).countP Option.isSome := by
  induction l with
  | nil => simp [validCount]
  | cons r l ih =>
    unfold validCount at ih ⊢
    rw [List.filter_cons, List.map_cons, List.countP_cons]
    by_cases h : rowValid r = true
    · rw [if_pos h]
      have h1 : (if Option.isSome (f r) = true then 1 else 0) = 1 := by
        rw [hf r h]; rfl
      rw [h1]
      simp only [List.length_cons]
      omega
    · rw [if_neg h]
      exact le_trans ih (Nat.le_add_right _ _)

theorem length_filterMap_id (xs : List (Option ℚ)) :
    (xs.filterMap id).length = xs.countP Option.isSome := by
  induction xs with
  | nil => rfl
  | cons x xs ih =>
    cases x <;> simp [List.filterMap_cons, List.countP_cons, ih, Option.isSome]

theorem exists_valid_row (l : List RawRow) (h : 1 ≤ validCount l) :
    ∃ r, r ∈ l ∧ rowValid r = true := by
  unfold validCount at h
  have hne : l.filter rowValid ≠ [] := by
    intro habs; rw [habs] at h; simp at h
  obtain ⟨r, hr⟩ := List.exists_mem_of_ne_nil _ hne
  exact ⟨r, (List.mem_filter.mp hr).1, (List.mem_filter.mp hr).2⟩

theorem analyze_ok_elim (b : List RawRow) (tf : String) (r : AnalysisOk)
    (h : analyzeData b tf = .ok r) :
    r = analyzeOk b tf ∧ 50 ≤ b.length ∧ 20 ≤ validCount (dfOf b) := by
  unfold analyzeData at h
  by_cases h1 : b.length < 50
  · rw [if_pos h1] at h; exact absurd h (by simp)
  · rw [if_neg h1] at h
    by_cases h2 : validCount (dfOf b) < 20
    · rw [if_pos h2] at h; exact absurd h (by simp)
    · rw [if_neg h2] at h
      refine ⟨(Except.ok.injEq _ _).mp h.symm, ?_, ?_⟩ <;> omega

theorem latestPriceOf_isSome (b : List RawRow) (hb : b ≠ [])
    (hv : 1 ≤ validCount (dfOf b)) : ∃ p, latestPriceOf b = some p := by
  obtain ⟨r, hrm, hrv⟩ := exists_valid_row _ hv
  have hcl : (r.close).isSome = true := by
    rw [rowValid] at hrv; simp only [Bool.and_eq_true] at hrv; exact hrv.1.1.2
  obtain ⟨y, hy⟩ := Option.isSome_iff_exists.mp hcl
  have hmem : some y ∈ closesOf b := by
    rw [closesOf]; exact List.mem_map.mpr ⟨r, hrm, by rw [hy]⟩
  have hcol : closesOf b = ffillAux none (b.map RawRow.close) :=
    map_close_repairAux b _
  rw [hcol] at hmem
  have hmapne : b.map RawRow.close ≠ [] := by
    intro habs; apply hb; exact List.map_eq_nil_iff.mp habs
  have : latestPriceOf b = fillFold none (b.map RawRow.close) := by
    rw [latestPriceOf, hcol, lastCell_ffillAux _ _ hmapne]
  rw [this]
  exact Option.isSome_iff_exists.mp (fillFold_isSome_of_mem _ _ _ hmem)

theorem latestVolumeOf_isSome (b : List RawRow) (hb : b ≠ [])
    (hv : 1 ≤ validCount (dfOf b)) : ∃ v, latestVolumeOf b = some v := by
  obtain ⟨r, hrm, hrv⟩ := exists_valid_row _ hv
  have hcl : (r.usdtVol).isSome = true := by
    rw [rowValid] at hrv; simp only [Bool.and_eq_true] at hrv; exact hrv.2
  obtain ⟨y, hy⟩ := Option.isSome_iff_exists.mp hcl
  have hmem : some y ∈ volsOf b := by
    rw [volsOf]; exact List.mem_map.mpr ⟨r, hrm, by rw [hy]⟩
  have hcol : volsOf b = ffillAux none (b.map RawRow.usdtVol) :=
    map_usdtVol_repairAux b _
  rw [hcol] at hmem
  have hmapne : b.map RawRow.usdtVol ≠ [] := by
    intro habs; apply hb; exact List.map_eq_nil_iff.mp habs
  have : latestVolumeOf b = fillFold none (b.map RawRow.usdtVol) := by
    rw [latestVolumeOf, hcol, lastCell_ffillAux _ _ hmapne]
  rw [this]
  exact Option.isSome_iff_exists.mp (fillFold_isSome_of_mem _ _ _ hmem)

theorem latestLowOf_isSome (b : List RawRow) (hb : b ≠ [])
    (hv : 1 ≤ validCount (dfOf b)) : ∃ l, latestLowOf b = some l := by
  obtain ⟨r, hrm, hrv⟩ := exists_valid_row _ hv
  have hcl : (r.low).isSome = true := by
    rw [rowValid] at hrv; simp only [Bool.and_eq_true] at hrv; exact hrv.1.1.1.2
  obtain ⟨y, hy⟩ := Option.isSome_iff_exists.mp hcl
  have hmem : some y ∈ lowsOf b := by
    rw [lowsOf]; exact List.mem_map.mpr ⟨r, hrm, by rw [hy]⟩
  have hcol : lowsOf b = ffillAux none (b.map RawRow.low) :=
    map_low_repairAux b _
  rw [hcol] at hmem
  have hmapne : b.map RawRow.low ≠ [] := by
    intro habs; apply hb; exact List.map_eq_nil_iff.mp habs
  have : latestLowOf b = fillFold none (b.map RawRow.low) := by
    rw [latestLowOf, hcol, lastCell_ffillAux _ _ hmapne]
  rw [this]
  exact Option.isSome_iff_exists.mp (fillFold_isSome_of_mem _ _ _ hmem)

theorem countP_closes_ge (b : List RawRow) :
    validCount (dfOf b) ≤ (closesOf b).countP Option.isSome := by
  apply validCount_le_countP_col
  intro r hr
  rw [rowValid] at hr; simp only [Bool.and_eq_true] at hr; exact hr.1.1.2

theorem countP_vols_ge (b : List RawRow) :
    validCount (dfOf b) ≤ (volsOf b).countP Option.isSome := by
  apply validCount_le_countP_col
  intro r hr
  rw [rowValid] at hr; simp only [Bool.and_eq_true] at hr; exact hr.2

theorem colMean_isSome_of_countP (xs : List (Option ℚ))
    (h : 1 ≤ xs.countP Option.isSome) : ∃ m, colMean xs = some m := by
  rw [colMean]
  have hl : (xs.filterMap id).length ≠ 0 := by
    rw [length_filterMap_id]; omega
  simp only [hl, if_false]
  exact ⟨_, rfl⟩

theorem volumeAvg20Of_isSome (b : List RawRow)
    (h : 1 ≤ (volsOf b).countP Option.isSome) : ∃ v, volumeAvg20Of b = some v := by
  unfold volumeAvg20Of volumeAvg20
  rcases hroll : rollingMeanLast 20 (volsOf b) with _ | w
  · exact colMean_isSome_of_countP _ h
  · dsimp only
    by_cases hw : w ≤ 0
    · rw [if_pos hw]
      exact colMean_isSome_of_countP _ h
    · rw [if_neg hw]
      exact ⟨w, rfl⟩

theorem emasOf_isSome (b : List RawRow) (hvc : 20 ≤ validCount (dfOf b)) :
    (∃ e, ema10Of b = some e) ∧ ∃ e, ema20Of b = some e := by
  have hcnt : 20 ≤ (closesOf b).countP Option.isSome :=
    le_trans hvc (countP_closes_ge b)
  exact ⟨emaLast_isSome_of_countP 10 (by omega) _ (by omega),
    emaLast_isSome_of_countP 20 (by omega) _ (by omega)⟩

theorem analyzeOk_latest_price (b : List RawRow) (tf : String) :
    (analyzeOk b tf).indicators.latest_price = latestPriceOf b := rfl

theorem analyzeOk_latest_volume (b : List RawRow) (tf : String) :
    (analyzeOk b tf).indicators.latest_volume = latestVolumeOf b := rfl

theorem analyzeOk_volume_avg_20 (b : List RawRow) (tf : String) :
    (analyzeOk b tf).indicators.volume_avg_20 = volumeAvg20Of b := rfl

theorem analyzeOk_ema10 (b : List RawRow) (tf : String) :
    (analyzeOk b tf).indicators.ema10 = ema10Of b := rfl

theorem analyzeOk_ema20 (b : List RawRow) (tf : String) :
    (analyzeOk b tf).indicators.ema20 = ema20Of b := rfl

theorem analyzeOk_ema50 (b : List RawRow) (tf : String) :
    (analyzeOk b tf).indicators.ema50 = ema50Of b tf := rfl

theorem analyzeOk_ema200 (b : List RawRow) (tf : String) :
    (analyzeOk b tf).indicators.ema200 = ema200Of b tf := rfl

theorem analyzeOk_criteria (b : List RawRow) (tf : String) :
    (analyzeOk b tf).gti_criteria_checks =
      criteriaChecks
        (gtiResults (ema10Of b) (ema20Of b) (latestPriceOf b))
        (volBreakoutOf b)
        (pullbackFlag (ema10Of b) (latestLowOf b) (latestPriceOf b))
        (pullbackFlag (ema20Of b) (latestLowOf b) (latestPriceOf b)) := rfl

theorem analyzeOk_ohlc (b : List RawRow) (tf : String) :
    (analyzeOk b tf).ohlc_data = ohlcOf b := rfl

theorem ne_nil_of_fifty (b : List RawRow) (hlen : 50 ≤ b.length) : b ≠ [] := by
  intro habs; rw [habs] at hlen; simp at hlen

/-! The claims. -/

/-- C1: for every analysis in which both ema10 and ema20 are non-null,
`trend_condition_met` is true iff ema10 > ema20 and latest_price > ema10
and latest_price > ema20; any single false condition forces it false. -/
theorem C1_trend_condition_iff (b : List RawRow) (tf : String) (r : AnalysisOk)
    (e10 e20 : ℚ) (hr : analyzeData b tf = .ok r)
    (h10 : r.indicators.ema10 = some e10) (h20 : r.indicators.ema20 = some e20) :
    ∃ p : ℚ, r.indicators.latest_price = some p ∧
      ∃ t : Bool, lookupG "trend_condition_met" r.gti_criteria_checks = some (.b t) ∧
        (t = true ↔ (e20 < e10 ∧ e10 < p ∧ e20 < p)) := by
  obtain ⟨heq, hlen, hvc⟩ := analyze_ok_elim b tf r hr
  subst heq
  rw [analyzeOk_ema10] at h10
  rw [analyzeOk_ema20] at h20
  obtain ⟨p, hp⟩ := latestPriceOf_isSome b (ne_nil_of_fifty b hlen) (by omega)
  refine ⟨p, by rw [analyzeOk_latest_price, hp], ?_⟩
  rw [analyzeOk_criteria, h10, h20, hp]
  refine ⟨_, rfl, ?_⟩
  simp only [qgt, Bool.and_eq_true, decide_eq_true_eq]

/-- Witness for C1 on a concrete 50-candle batch. -/
theorem C1_trend_condition_iff_witness :
    ∃ p : ℚ, (okd (analyzeData sample50 "1h")).indicators.latest_price = some p ∧
      ∃ t : Bool,
        lookupG "trend_condition_met"
            (okd (analyzeData sample50 "1h")).gti_criteria_checks = some (.b t) ∧
        (t = true ↔ ((1 : ℚ) < 1 ∧ (1 : ℚ) < p ∧ (1 : ℚ) < p)) :=
  C1_trend_condition_iff sample50 "1h" (okd (analyzeData sample50 "1h")) 1 1
    rfl (by decide) (by decide)

/-- C3: every batch of fewer than 50 rows (in particular the empty batch)
yields the bare error-result, which carries nothing but the message. -/
theorem C3_insufficient_data (b : List RawRow) (tf : String) (h : b.length < 50) :
    analyzeData b tf = .error "Không đủ dữ liệu để phân tích." := by
  unfold analyzeData
  rw [if_pos h]

/-- Witness for C3 on the empty batch. -/
theorem C3_insufficient_data_witness :
    ([] : List RawRow).length < 50 ∧
      analyzeData [] "1h" = .error "Không đủ dữ liệu để phân tích." :=
  ⟨by decide, C3_insufficient_data [] "1h" (by decide)⟩

/-- C9: a non-error analysis always has non-null ema10 and ema20 (the
dropna gate guarantees at least 20 valid closes), so the insufficient-EMA
branch never fires: the criteria block carries no "error" entry. -/
theorem C9_short_emas_always_present (b : List RawRow) (tf : String) (r : AnalysisOk)
    (hr : analyzeData b tf = .ok r) :
    r.indicators.ema10 ≠ none ∧ r.indicators.ema20 ≠ none ∧
      lookupG "error" r.gti_criteria_checks = none := by
  obtain ⟨heq, hlen, hvc⟩ := analyze_ok_elim b tf r hr
  subst heq
  obtain ⟨⟨e10, h10⟩, ⟨e20, h20⟩⟩ := emasOf_isSome b hvc
  refine ⟨?_, ?_, ?_⟩
  · rw [analyzeOk_ema10, h10]; simp
  · rw [analyzeOk_ema20, h20]; simp
  · rw [analyzeOk_criteria, h10, h20]
    rfl

/-- Witness for C9 on a concrete 50-candle batch. -/
theorem C9_short_emas_always_present_witness :
    (okd (analyzeData sample50 "1h")).indicators.ema10 ≠ none ∧
    (okd (analyzeData sample50 "1h")).indicators.ema20 ≠ none ∧
      lookupG "error" (okd (analyzeData sample50 "1h")).gti_criteria_checks = none :=
  C9_short_emas_always_present sample50 "1h" (okd (analyzeData sample50 "1h")) rfl

/-- C4: in every non-error analysis the volume-breakout flag is true iff
the computed `volume_avg_20` is strictly positive and the latest volume
exceeds 1.5 times it; a non-positive average forces the flag false, and
no fault is raised (the computation is total). -/
theorem C4_volume_breakout_iff (b : List RawRow) (tf : String) (r : AnalysisOk)
    (hr : analyzeData b tf = .ok r) :
    ∃ lv v : ℚ, r.indicators.latest_volume = some lv ∧
      r.indicators.volume_avg_20 = some v ∧
      ∃ t : Bool,
        lookupG "volume_breakout_on_latest_candle" r.gti_criteria_checks =
          some (.b t) ∧
        (t = true ↔ (0 < v ∧ 3 / 2 * v < lv)) := by
  obtain ⟨heq, hlen, hvc⟩ := analyze_ok_elim b tf r hr
  subst heq
  obtain ⟨lv, hlv⟩ := latestVolumeOf_isSome b (ne_nil_of_fifty b hlen) (by omega)
  have hcv : 1 ≤ (volsOf b).countP Option.isSome :=
    le_trans (by omega) (countP_vols_ge b)
  obtain ⟨v, hv⟩ := volumeAvg20Of_isSome b hcv
  obtain ⟨⟨e10, h10⟩, ⟨e20, h20⟩⟩ := emasOf_isSome b hvc
  refine ⟨lv, v, by rw [analyzeOk_latest_volume, hlv],
    by rw [analyzeOk_volume_avg_20, hv], ?_⟩
  rw [analyzeOk_criteria, h10, h20]
  refine ⟨volBreakoutOf b, rfl, ?_⟩
  unfold volBreakoutOf
  rw [hv, hlv]
  dsimp only
  by_cases h0 : 0 < v
  · rw [if_pos h0]
    simp only [qgt, decide_eq_true_eq]
    exact ⟨fun h => ⟨h0, h⟩, fun h => h.2⟩
  · rw [if_neg h0]
    simp [h0]

/-- Witness for C4 on a concrete 50-candle batch with a volume spike. -/
theorem C4_volume_breakout_iff_witness :
    ∃ lv v : ℚ,
      (okd (analyzeData sample50 "1h")).indicators.latest_volume = some lv ∧
      (okd (analyzeData sample50 "1h")).indicators.volume_avg_20 = some v ∧
      ∃ t : Bool,
        lookupG "volume_breakout_on_latest_candle"
            (okd (analyzeData sample50 "1h")).gti_criteria_checks = some (.b t) ∧
        (t = true ↔ (0 < v ∧ 3 / 2 * v < lv)) :=
  C4_volume_breakout_iff sample50 "1h" (okd (analyzeData sample50 "1h")) rfl

/-- C5: in every non-error analysis, for each of ema10/ema20: when the EMA
is non-null the pullback flag equals (latest_low ≤ ema AND
latest_price > ema); when the EMA is null the flag is false. -/
theorem C5_pullback_flags (b : List RawRow) (tf : String) (r : AnalysisOk)
    (hr : analyzeData b tf = .ok r) :
    ∃ l p : ℚ, latestLowOf b = some l ∧ r.indicators.latest_price = some p ∧
      (∀ e : ℚ, r.indicators.ema10 = some e →
        lookupG "pullback_to_ema10" r.gti_criteria_checks =
          some (.b (decide (l ≤ e) && decide (e < p)))) ∧
      (r.indicators.ema10 = none →
        lookupG "pullback_to_ema10" r.gti_criteria_checks = some (.b false)) ∧
      (∀ e : ℚ, r.indicators.ema20 = some e →
        lookupG "pullback_to_ema20" r.gti_criteria_checks =
          some (.b (decide (l ≤ e) && decide (e < p)))) ∧
      (r.indicators.ema20 = none →
        lookupG "pullback_to_ema20" r.gti_criteria_checks = some (.b false)) := by
  obtain ⟨heq, hlen, hvc⟩ := analyze_ok_elim b tf r hr
  subst heq
  obtain ⟨l, hl⟩ := latestLowOf_isSome b (ne_nil_of_fifty b hlen) (by omega)
  obtain ⟨p, hp⟩ := latestPriceOf_isSome b (ne_nil_of_fifty b hlen) (by omega)
  obtain ⟨⟨e10, h10⟩, ⟨e20, h20⟩⟩ := emasOf_isSome b hvc
  refine ⟨l, p, hl, by rw [analyzeOk_latest_price, hp], ?_, ?_, ?_, ?_⟩
  · intro e he
    rw [analyzeOk_ema10] at he
    rw [analyzeOk_criteria, he, h20, hl, hp]
    rfl
  · intro habs
    rw [analyzeOk_ema10, h10] at habs
    simp at habs
  · intro e he
    rw [analyzeOk_ema20] at he
    rw [analyzeOk_criteria, he, h10, hl, hp]
    rfl
  · intro habs
    rw [analyzeOk_ema20, h20] at habs
    simp at habs

/-- Witness for C5 on a concrete 50-candle batch. -/
theorem C5_pullback_flags_witness :
    ∃ l p : ℚ, latestLowOf sample50 = some l ∧
      (okd (analyzeData sample50 "1h")).indicators.latest_price = some p ∧
      (∀ e : ℚ, (okd (analyzeData sample50 "1h")).indicators.ema10 = some e →
        lookupG "pullback_to_ema10"
            (okd (analyzeData sample50 "1h")).gti_criteria_checks =
          some (.b (decide (l ≤ e) && decide (e < p)))) ∧
      ((okd (analyzeData sample50 "1h")).indicators.ema10 = none →
        lookupG "pullback_to_ema10"
            (okd (analyzeData sample50 "1h")).gti_criteria_checks =
          some (.b false)) ∧
      (∀ e : ℚ, (okd (analyzeData sample50 "1h")).indicators.ema20 = some e →
        lookupG "pullback_to_ema20"
            (okd (analyzeData sample50 "1h")).gti_criteria_checks =
          some (.b (decide (l ≤ e) && decide (e < p)))) ∧
      ((okd (analyzeData sample50 "1h")).indicators.ema20 = none →
        lookupG "pullback_to_ema20"
            (okd (analyzeData sample50 "1h")).gti_criteria_checks =
          some (.b false)) :=
  C5_pullback_flags sample50 "1h" (okd (analyzeData sample50 "1h")) rfl

/-- C8: in every non-error analysis, `volume_avg_20` is the 20-row rolling
mean when that is non-null and positive, and the mean of the whole volume
series otherwise; the whole-series mean is always available in a
non-error analysis, so the final `1` sentinel of the exception handler is
never needed. -/
theorem C8_volume_avg_policy (b : List RawRow) (tf : String) (r : AnalysisOk)
    (hr : analyzeData b tf = .ok r) :
    ((∃ v : ℚ, rollingMeanLast 20 (volsOf b) = some v ∧ 0 < v) →
        r.indicators.volume_avg_20 = rollingMeanLast 20 (volsOf b)) ∧
    (¬(∃ v : ℚ, rollingMeanLast 20 (volsOf b) = some v ∧ 0 < v) →
        r.indicators.volume_avg_20 = colMean (volsOf b)) ∧
    colMean (volsOf b) ≠ none := by
  obtain ⟨heq, hlen, hvc⟩ := analyze_ok_elim b tf r hr
  subst heq
  have hcv : 1 ≤ (volsOf b).countP Option.isSome :=
    le_trans (by omega) (countP_vols_ge b)
  obtain ⟨m, hm⟩ := colMean_isSome_of_countP _ hcv
  rw [analyzeOk_volume_avg_20]
  refine ⟨?_, ?_, by rw [hm]; simp⟩
  · rintro ⟨v, hv, hvpos⟩
    unfold volumeAvg20Of volumeAvg20
    rw [hv]
    dsimp only
    rw [if_neg (not_le.mpr hvpos)]
  · intro hn
    unfold volumeAvg20Of volumeAvg20
    rcases hroll : rollingMeanLast 20 (volsOf b) with _ | w
    · rfl
    · dsimp only
      by_cases hw : w ≤ 0
      · rw [if_pos hw]
      · exact absurd ⟨w, hroll, not_le.mp hw⟩ hn

/-- Witness for C8 on a concrete 50-candle batch. -/
theorem C8_volume_avg_policy_witness :
    ((∃ v : ℚ, rollingMeanLast 20 (volsOf sample50) = some v ∧ 0 < v) →
        (okd (analyzeData sample50 "1h")).indicators.volume_avg_20 =
          rollingMeanLast 20 (volsOf sample50)) ∧
    (¬(∃ v : ℚ, rollingMeanLast 20 (volsOf sample50) = some v ∧ 0 < v) →
        (okd (analyzeData sample50 "1h")).indicators.volume_avg_20 =
          colMean (volsOf sample50)) ∧
    colMean (volsOf sample50) ≠ none :=
  C8_volume_avg_policy sample50 "1h" (okd (analyzeData sample50 "1h")) rfl

/-- C6 counterexample: the claim asserts that with a null EMA all four
trend flags are present and false; but the code's insufficient-EMA block
(lines 210-213) inserts only `trend_condition_met` — the three keys
`price_above_ema10`, `price_above_ema20`, `ema10_above_ema20` are absent
from the criteria dict it produces. -/
theorem C6_counterexample :
    lookupG "trend_condition_met"
        (criteriaChecks (gtiResults none (some 1) (some 1)) false false false) =
      some (.b false) ∧
    lookupG "price_above_ema10"
        (criteriaChecks (gtiResults none (some 1) (some 1)) false false false) =
      none ∧
    lookupG "price_above_ema20"
        (criteriaChecks (gtiResults none (some 1) (some 1)) false false false) =
      none ∧
    lookupG "ema10_above_ema20"
        (criteriaChecks (gtiResults none (some 1) (some 1)) false false false) =
      none := by
  refine ⟨rfl, rfl, rfl, rfl⟩

/-- C6 amended: when either EMA is null the trend block of the criteria
dict consists of exactly `trend_condition_met = false` plus an `error`
entry with the insufficient-EMA message; the other three trend flags are
absent.  (By C9 this branch is unreachable in a non-error analysis.) -/
theorem C6_null_ema_block (e10 e20 p : Option ℚ) (h : e10 = none ∨ e20 = none) :
    gtiResults e10 e20 p =
      [("trend_condition_met", .b false),
       ("error", .s "Không đủ dữ liệu để tính EMA")] := by
  rcases h with h | h
  · subst h
    rcases e20 with _ | v <;> rfl
  · subst h
    rcases e10 with _ | v <;> rfl

/-- Witness for the amended C6 at a concrete null EMA-10. -/
theorem C6_null_ema_block_witness :
    gtiResults none (some 1) (some 1) =
      [("trend_condition_met", .b false),
       ("error", .s "Không đủ dữ liệu để tính EMA")] :=
  C6_null_ema_block none (some 1) (some 1) (Or.inl rfl)

/-- C10: in every non-error analysis of an n-row batch the OHLC echo has
exactly min(100, n) entries: the final rows of the forward-fill-repaired
frame, in stored order, so an echoed candle shows the repaired values. -/
theorem C10_ohlc_echo (b : List RawRow) (tf : String) (r : AnalysisOk)
    (hr : analyzeData b tf = .ok r) :
    r.ohlc_data.length = min 100 b.length ∧
    r.ohlc_data =
      ((repairRows b).drop (b.length - min 100 b.length)).map echoRow := by
  obtain ⟨heq, hlen, hvc⟩ := analyze_ok_elim b tf r hr
  subst heq
  rw [analyzeOk_ohlc]
  simp only [ohlcOf, length_dfOf]
  constructor
  · rw [List.length_map, List.length_drop]
    rw [length_dfOf]
    omega
  · rfl

/-- Witness for C10 on a batch whose row 30 has an unparsable close: the
echoed candle 30 carries the repaired close while the raw row has none. -/
theorem C10_ohlc_echo_witness :
    analyzeData sampleGap "1h" = .ok (okd (analyzeData sampleGap "1h")) ∧
    ((okd (analyzeData sampleGap "1h")).ohlc_data.length =
        min 100 sampleGap.length ∧
      (okd (analyzeData sampleGap "1h")).ohlc_data =
        ((repairRows sampleGap).drop
            (sampleGap.length - min 100 sampleGap.length)).map echoRow) ∧
    (okd (analyzeData sampleGap "1h")).ohlc_data[30]? =
      some ⟨30, some 1, some 1, some 1, some 1, some 1⟩ ∧
    sampleGap[30]? = some ⟨30, some 1, some 1, some 1, none, some 1, some 1⟩ :=
  ⟨rfl, C10_ohlc_echo sampleGap "1h" (okd (analyzeData sampleGap "1h")) rfl,
    by decide, by decide⟩

/-- C2 counterexample: a 200-row daily batch whose first close is
unparsable yields a non-error analysis on a long timeframe with 200 rows,
yet `ema200` is null (only 199 valid closes reach the 200-period
minimum-observation gate) while `ema50` is populated — refuting both the
"iff" and the "both" of the claim. -/
theorem C2_counterexample :
    analyzeData sample200 "1D" = .ok (okd (analyzeData sample200 "1D")) ∧
    sample200.length = 200 ∧
    (okd (analyzeData sample200 "1D")).indicators.ema200 = none ∧
    (okd (analyzeData sample200 "1D")).indicators.ema50 ≠ none :=
  ⟨rfl, by decide, by decide, by decide⟩

/-- C2 amended: ema50 (resp. ema200) is non-null iff the timeframe is
"1D" or "1W", the batch has at least 200 rows, and the repaired close
column has at least 50 (resp. 200) parsed entries; otherwise it is null.
When every close parses the extra condition follows from the row count,
recovering the claim's intended reading. -/
theorem C2_long_ema_availability (b : List RawRow) (tf : String) (r : AnalysisOk)
    (hr : analyzeData b tf = .ok r) :
    (r.indicators.ema50 ≠ none ↔
      ((tf = "1D" ∨ tf = "1W") ∧ 200 ≤ b.length ∧
        50 ≤ (closesOf b).countP Option.isSome)) ∧
    (r.indicators.ema200 ≠ none ↔
      ((tf = "1D" ∨ tf = "1W") ∧ 200 ≤ b.length ∧
        200 ≤ (closesOf b).countP Option.isSome)) := by
  obtain ⟨heq, hlen, hvc⟩ := analyze_ok_elim b tf r hr
  subst heq
  rw [analyzeOk_ema50, analyzeOk_ema200]
  unfold ema50Of ema200Of
  simp only [length_dfOf]
  constructor
  · by_cases hc : (tf = "1D" ∨ tf = "1W") ∧ 200 ≤ b.length
    · rw [if_pos hc]
      constructor
      · intro hne
        have hcount : ¬ ((closesOf b).countP Option.isSome < 50) := fun hlt =>
          hne ((emaLast_eq_none_iff 50 (by omega) _).mpr hlt)
        exact ⟨hc.1, hc.2, by omega⟩
      · rintro ⟨h1, h2, hcount⟩
        intro habs
        have := (emaLast_eq_none_iff 50 (by omega) _).mp habs
        omega
    · rw [if_neg hc]
      constructor
      · intro habs
        exact absurd rfl habs
      · rintro ⟨h1, h2, h3⟩
        exact absurd ⟨h1, h2⟩ hc
  · by_cases hc : (tf = "1D" ∨ tf = "1W") ∧ 200 ≤ b.length
    · rw [if_pos hc]
      constructor
      · intro hne
        have hcount : ¬ ((closesOf b).countP Option.isSome < 200) := fun hlt =>
          hne ((emaLast_eq_none_iff 200 (by omega) _).mpr hlt)
        exact ⟨hc.1, hc.2, by omega⟩
      · rintro ⟨h1, h2, hcount⟩
        intro habs
        have := (emaLast_eq_none_iff 200 (by omega) _).mp habs
        omega
    · rw [if_neg hc]
      constructor
      · intro habs
        exact absurd rfl habs
      · rintro ⟨h1, h2, h3⟩
        exact absurd ⟨h1, h2⟩ hc

/-- Witness for the amended C2 on the 200-row daily batch. -/
theorem C2_long_ema_availability_witness :
    ((okd (analyzeData sample200 "1D")).indicators.ema50 ≠ none ↔
      (("1D" = "1D" ∨ "1D" = "1W") ∧ 200 ≤ sample200.length ∧
        50 ≤ (closesOf sample200).countP Option.isSome)) ∧
    ((okd (analyzeData sample200 "1D")).indicators.ema200 ≠ none ↔
      (("1D" = "1D" ∨ "1D" = "1W") ∧ 200 ≤ sample200.length ∧
        200 ≤ (closesOf sample200).countP Option.isSome)) :=
  C2_long_ema_availability sample200 "1D" (okd (analyzeData sample200 "1D")) rfl

/-- C7 counterexample: the code never sorts by timestamp, so delivering
the same candles in descending instead of ascending order changes the
indicators: on fifty candles with strictly increasing closes, the
reversed batch yields a different ema10. -/
theorem C7_counterexample :
    analyzeData bAsc "1h" = .ok (okd (analyzeData bAsc "1h")) ∧
    analyzeData bAsc.reverse "1h" = .ok (okd (analyzeData bAsc.reverse "1h")) ∧
    (okd (analyzeData bAsc "1h")).indicators.ema10 ≠
      (okd (analyzeData bAsc.reverse "1h")).indicators.ema10 :=
  ⟨rfl, rfl, by decide⟩

theorem repairAux_retime (f : Int → Int) (rs : List RawRow) :
    ∀ p, repairAux p (rs.map (retimeRow f)) = (repairAux p rs).map (retimeRow f) := by
  induction rs with
  | nil => intro p; rfl
  | cons r rs ih =>
    intro p
    simp only [List.map_cons, repairAux, retimeRow, ih]

theorem dfOf_mapTs (f : Int → Int) (b : List RawRow) :
    dfOf (mapTs f b) = (dfOf b).map (retimeRow f) :=
  repairAux_retime f b _

theorem closesOf_mapTs (f : Int → Int) (b : List RawRow) :
    closesOf (mapTs f b) = closesOf b := by
  unfold closesOf
  rw [dfOf_mapTs, List.map_map]
  rfl

theorem volsOf_mapTs (f : Int → Int) (b : List RawRow) :
    volsOf (mapTs f b) = volsOf b := by
  unfold volsOf
  rw [dfOf_mapTs, List.map_map]
  rfl

theorem lowsOf_mapTs (f : Int → Int) (b : List RawRow) :
    lowsOf (mapTs f b) = lowsOf b := by
  unfold lowsOf
  rw [dfOf_mapTs, List.map_map]
  rfl

theorem validCount_mapTs (f : Int → Int) (l : List RawRow) :
    validCount (l.map (retimeRow f)) = validCount l := by
  induction l with
  | nil => rfl
  | cons r l ih =>
    unfold validCount at ih ⊢
    rw [List.map_cons, List.filter_cons, List.filter_cons]
    have hrv : rowValid (retimeRow f r) = rowValid r := rfl
    rw [hrv]
    by_cases h : rowValid r = true
    · rw [if_pos h, if_pos h, List.length_cons, List.length_cons, ih]
    · rw [if_neg h, if_neg h]
      exact ih

theorem ema10Of_mapTs (f : Int → Int) (b : List RawRow) :
    ema10Of (mapTs f b) = ema10Of b := by
  unfold ema10Of
  rw [closesOf_mapTs]

theorem ema20Of_mapTs (f : Int → Int) (b : List RawRow) :
    ema20Of (mapTs f b) = ema20Of b := by
  unfold ema20Of
  rw [closesOf_mapTs]

theorem ema50Of_mapTs (f : Int → Int) (b : List RawRow) (tf : String) :
    ema50Of (mapTs f b) tf = ema50Of b tf := by
  unfold ema50Of
  simp only [closesOf_mapTs, dfOf_mapTs, List.length_map]

theorem ema200Of_mapTs (f : Int → Int) (b : List RawRow) (tf : String) :
    ema200Of (mapTs f b) tf = ema200Of b tf := by
  unfold ema200Of
  simp only [closesOf_mapTs, dfOf_mapTs, List.length_map]

theorem latestPriceOf_mapTs (f : Int → Int) (b : List RawRow) :
    latestPriceOf (mapTs f b) = latestPriceOf b := by
  unfold latestPriceOf
  rw [closesOf_mapTs]

theorem latestVolumeOf_mapTs (f : Int → Int) (b : List RawRow) :
    latestVolumeOf (mapTs f b) = latestVolumeOf b := by
  unfold latestVolumeOf
  rw [volsOf_mapTs]

theorem latestLowOf_mapTs (f : Int → Int) (b : List RawRow) :
    latestLowOf (mapTs f b) = latestLowOf b := by
  unfold latestLowOf
  rw [lowsOf_mapTs]

theorem volumeAvg20Of_mapTs (f : Int → Int) (b : List RawRow) :
    volumeAvg20Of (mapTs f b) = volumeAvg20Of b := by
  unfold volumeAvg20Of
  rw [volsOf_mapTs]

theorem volBreakoutOf_mapTs (f : Int → Int) (b : List RawRow) :
    volBreakoutOf (mapTs f b) = volBreakoutOf b := by
  unfold volBreakoutOf
  rw [volumeAvg20Of_mapTs, latestVolumeOf_mapTs]

theorem ohlcOf_mapTs (f : Int → Int) (b : List RawRow) :
    ohlcOf (mapTs f b) = (ohlcOf b).map (retimeEcho f) := by
  unfold ohlcOf
  simp only [dfOf_mapTs, List.length_map]
  rw [← List.map_drop, List.map_map, List.map_map]
  rfl

theorem analyzeOk_mapTs (f : Int → Int) (b : List RawRow) (tf : String) :
    analyzeOk (mapTs f b) tf = retimeOk f (analyzeOk b tf) := by
  unfold analyzeOk retimeOk
  simp only [ema10Of_mapTs, ema20Of_mapTs, ema50Of_mapTs, ema200Of_mapTs,
    latestPriceOf_mapTs, latestVolumeOf_mapTs, latestLowOf_mapTs,
    volumeAvg20Of_mapTs, volBreakoutOf_mapTs, ohlcOf_mapTs, dfOf_mapTs,
    List.length_map, validCount_mapTs]

/-- C7 amended: the engine performs no timestamp sort: rows are consumed
in delivered order (so ascending vs descending delivery can differ, see
the counterexample), and timestamps influence nothing but the echoed
timestamps — relabelling every timestamp leaves the indicators, criteria,
data-quality block and error behaviour unchanged. -/
theorem C7_no_sort_timestamps_irrelevant (b : List RawRow) (tf : String)
    (f : Int → Int) :
    analyzeData (mapTs f b) tf = Except.map (retimeOk f) (analyzeData b tf) := by
  unfold analyzeData
  have hlen : (mapTs f b).length = b.length := List.length_map _ _
  have hvc : validCount (dfOf (mapTs f b)) = validCount (dfOf b) := by
    rw [dfOf_mapTs]
    exact validCount_mapTs f _
  rw [hlen, hvc]
  by_cases h1 : b.length < 50
  · rw [if_pos h1, if_pos h1]
    rfl
  · rw [if_neg h1, if_neg h1]
    by_cases h2 : validCount (dfOf b) < 20
    · rw [if_pos h2, if_pos h2]
      rfl
    · rw [if_neg h2, if_neg h2]
      rw [analyzeOk_mapTs]
      rfl

end CryptoAnalyzer
